import Mathlib

/-!
Verification of the stock-market-analyzer coordination logic
(src/INR_Stock_Analyzer.py) against its specification.

The Python program is a thin coordination layer: a symbol resolver
(exchange suffix table, lines 35-43 and 118-120), an analysis pipeline
(`StockAnalyzer.get_stock_data`, lines 45-61, and
`StockAnalyzer.add_indicators`, lines 63-79), and a presentation layer
(`main`, lines 109-168) that derives summary metrics, builds a chart and
offers a CSV export.

Shallow embedding conventions:
* prices and volumes are rationals (exact arithmetic; the Python floats
  are IEEE doubles, but every property claimed of them is exact-algebraic);
* a pandas `DataFrame` of daily bars is a `List Bar` (index column `Date`
  modelled as a natural day number inside each bar);
* missing values (`NaN` produced by indicator warm-up rows) are `Option`;
* Python exceptions from the data provider are an `Except String` input;
* fallible element access (`iloc[-2]`) returns an `Option`.

The technical-analysis library (`ta`), pandas CSV serialization and the
data provider are third-party code not present in the repository; the
definitions that stand in for them are marked `Modelled from the spec:`
and follow the specification text.
-/

/-! ### Data model -/

/-- One daily price bar as fetched from the provider: the timestamp index
(`Date`, a day number) and the Open/High/Low/Close/Volume columns. -/
structure Bar where
  Date : Nat
  Open : ℚ
  High : ℚ
  Low : ℚ
  Close : ℚ
  Volume : ℚ
deriving DecidableEq, Repr

instance : Inhabited Bar := ⟨⟨0, 0, 0, 0, 0, 0⟩⟩

/-- Provider metadata record (`stock.info`, a Python dict of descriptive
fields); its contents are opaque to the pipeline. -/
abbrev Info := List (String × String)

/-! ### Symbol Resolver (lines 35-43, 115-120) -/

/-- The seven exchange choices offered by the sidebar selectbox
(line 115-116). -/
inductive Exchange where
  | NSE | BSE | NYSE | LSE | EUR | JPX | HKEX
deriving DecidableEq, Repr

/-- The suffix table `StockAnalyzer.exchange_map` (lines 35-43). -/
def exchange_map : Exchange → String
  | .NSE => ".NS"
  | .BSE => ".BO"
  | .NYSE => ""
  | .LSE => ".L"
  | .EUR => ".DE"
  | .JPX => ".T"
  | .HKEX => ".HK"

/-- Symbol resolution as performed in `main` (lines 118-120): uppercase
the raw ticker, then append the exchange suffix unless the exchange is
NYSE. -/
def resolveSymbol (ticker : String) (exchange : Exchange) : String :=
  let s := ticker.toUpper
  if exchange = .NYSE then s else s ++ exchange_map exchange

/-! ### Timeframe presets (lines 122-127) and fetch date range (47-48) -/

/-- The four timeframe presets of the sidebar selectbox (lines 122-125). -/
inductive Timeframe where
  | M1 | M3 | M6 | Y1
deriving DecidableEq, Repr

/-- The day-count dictionary of line 127. -/
def timeframe_days : Timeframe → Nat
  | .M1 => 30
  | .M3 => 90
  | .M6 => 180
  | .Y1 => 365

/-- The date range computed by `get_stock_data` (lines 47-48):
`end = datetime.now()`, `start = end - timedelta(days=days)`. Time is
modelled as an integer day count. -/
def fetch_range (now : ℤ) (days : Nat) : ℤ × ℤ :=
  (now - days, now)

/-! ### Indicator step (lines 63-79)

The indicator math is delegated to the third-party `ta` library, which is
not part of this repository; the functions below are modelled from the
specification (§4.2 Indicator step). -/

/-- Modelled from the spec: a simple moving average over the close-price
series (`ta.trend.sma_indicator`, lines 66-67). Entry `i` is the mean of
the `window` closes ending at `i`; rows preceding the minimum required
window hold a missing value. -/
def sma_indicator (window : Nat) (close : List ℚ) : List (Option ℚ) :=
  (List.range close.length).map fun i =>
    if window ≤ i + 1 then
      some ((((close.take (i + 1)).drop (i + 1 - window)).sum) / window)
    else none

/-- Recursive exponentially-weighted mean with smoothing factor `alpha`,
seeded at `prev`: each output is `(1 - alpha) * previous + alpha * x`. -/
def ewmaFrom (alpha : ℚ) (prev : ℚ) : List ℚ → List ℚ
  | [] => []
  | x :: xs => ((1 - alpha) * prev + alpha * x) :: ewmaFrom alpha ((1 - alpha) * prev + alpha * x) xs

/-- Modelled from the spec: exponential moving average (recursive form,
first output equals the first input). -/
def ewma (alpha : ℚ) : List ℚ → List ℚ
  | [] => []
  | x :: xs => x :: ewmaFrom alpha x xs

/-- Replace the first `k` entries of a series by missing values: the
warm-up rows of an indicator whose lookback is not yet satisfied. -/
def maskWarmup : Nat → List ℚ → List (Option ℚ)
  | _, [] => []
  | 0, x :: xs => some x :: maskWarmup 0 xs
  | k + 1, _ :: xs => none :: maskWarmup k xs

/-- Day-over-day gains of the close series (first entry has no previous
close and contributes a zero gain). -/
def gainSeries (close : List ℚ) : List ℚ :=
  match close with
  | [] => []
  | _ :: _ => 0 :: List.zipWith (fun a b => max (a - b) 0) close.tail close

/-- Day-over-day losses of the close series, as positive magnitudes. -/
def lossSeries (close : List ℚ) : List ℚ :=
  match close with
  | [] => []
  | _ :: _ => 0 :: List.zipWith (fun a b => max (b - a) 0) close.tail close

/-- Modelled from the spec: the 14-period relative strength index
(`ta.momentum.rsi`, line 68) — Wilder-smoothed average gain and loss
(alpha = 1/window), `RSI = 100 - 100 / (1 + gain/loss)` (100 when the
average loss is zero), missing during the warm-up rows. -/
def rsi_indicator (window : Nat) (close : List ℚ) : List (Option ℚ) :=
  let au := ewma (1 / window) (gainSeries close)
  let ad := ewma (1 / window) (lossSeries close)
  maskWarmup (window - 1)
    (List.zipWith (fun u d => if d = 0 then 100 else 100 - 100 / (1 + u / d)) au ad)

/-- Span-parameterised EMA (pandas `ewm(span=n)`): alpha = 2/(n+1). -/
def emaSpan (span : Nat) (xs : List ℚ) : List ℚ :=
  ewma (2 / ((span : ℚ) + 1)) xs

/-- Modelled from the spec: the MACD line (`ta.trend.MACD(...).macd()`,
lines 71-72) — fast 12-period EMA minus slow 26-period EMA of the close. -/
def macd_line (close : List ℚ) : List ℚ :=
  List.zipWith (fun a b => a - b) (emaSpan 12 close) (emaSpan 26 close)

/-- Modelled from the spec: the MACD column, missing until the slow
26-period window is satisfied. -/
def macd_col (close : List ℚ) : List (Option ℚ) :=
  maskWarmup 25 (macd_line close)

/-- Modelled from the spec: the MACD signal line
(`ta.trend.MACD(...).macd_signal()`, line 73) — a 9-period EMA of the
MACD line, missing until both lookbacks are satisfied. -/
def macd_signal_col (close : List ℚ) : List (Option ℚ) :=
  maskWarmup 33 (emaSpan 9 (macd_line close))

/-- Modelled from the spec: upper Bollinger band
(`ta.volatility.BollingerBands(...).bollinger_hband()`, line 77) — the
20-period moving average plus 2 times the rolling standard deviation.
`Rat.sqrt` stands in for the real square root; it agrees with it exactly
whenever the rolling variance is a perfect rational square, and no claim
constrains the band values. -/
def bollinger_hband (window : Nat) (k : ℚ) (close : List ℚ) : List (Option ℚ) :=
  (List.range close.length).map fun i =>
    if window ≤ i + 1 then
      let w := (close.take (i + 1)).drop (i + 1 - window)
      let m := w.sum / window
      some (m + k * Rat.sqrt ((w.map (fun x => (x - m) ^ 2)).sum / window))
    else none

/-- Modelled from the spec: lower Bollinger band (line 78) — the
20-period moving average minus 2 times the rolling standard deviation. -/
def bollinger_lband (window : Nat) (k : ℚ) (close : List ℚ) : List (Option ℚ) :=
  (List.range close.length).map fun i =>
    if window ≤ i + 1 then
      let w := (close.take (i + 1)).drop (i + 1 - window)
      let m := w.sum / window
      some (m - k * Rat.sqrt ((w.map (fun x => (x - m) ^ 2)).sum / window))
    else none

/-- A row of the augmented series: the original bar plus the seven
indicator columns added by `add_indicators` (lines 66-78). -/
structure AugBar where
  base : Bar
  SMA20 : Option ℚ
  SMA50 : Option ℚ
  RSI : Option ℚ
  MACD : Option ℚ
  MACD_Signal : Option ℚ
  BB_Upper : Option ℚ
  BB_Lower : Option ℚ
deriving DecidableEq, Repr

instance : Inhabited AugBar := ⟨⟨default, none, none, none, none, none, none, none⟩⟩

/-- Look up entry `i` of an indicator column (missing past the end). -/
def optCol (col : List (Option ℚ)) (i : Nat) : Option ℚ :=
  col.getD i none

/-- Attach the pre-computed indicator columns to the bars, starting at
row index `i`. -/
def augmentFrom (c20 c50 cr cm cs cu cl : List (Option ℚ)) : Nat → List Bar → List AugBar
  | _, [] => []
  | i, b :: rest =>
    { base := b, SMA20 := optCol c20 i, SMA50 := optCol c50 i, RSI := optCol cr i,
      MACD := optCol cm i, MACD_Signal := optCol cs i,
      BB_Upper := optCol cu i, BB_Lower := optCol cl i }
      :: augmentFrom c20 c50 cr cm cs cu cl (i + 1) rest

/-- `StockAnalyzer.add_indicators` (lines 63-79): compute each indicator
column from the full close-price series and attach all seven columns to
the frame. (The Python guard `if df is not None and not df.empty` returns
an empty frame unchanged; here the empty list maps to the empty list.) -/
def add_indicators (df : List Bar) : List AugBar :=
  let close := df.map Bar.Close
  augmentFrom (sma_indicator 20 close) (sma_indicator 50 close)
    (rsi_indicator 14 close) (macd_col close) (macd_signal_col close)
    (bollinger_hband 20 2 close) (bollinger_lband 20 2 close) 0 df

/-! ### Fetch step: `StockAnalyzer.get_stock_data` (lines 45-61) -/

/-- Outcome of the provider interaction inside the `try` block: either
the fetched bar frame together with the `stock.info` metadata, or the
exception text. -/
abbrev Fetched := Except String (List Bar × Info)

/-- `StockAnalyzer.get_stock_data` (lines 45-61): compute the date range
`[now - days, now]`, ask the provider for daily bars over it, and
— if the frame is empty — report `"No data found"`; otherwise attach the
indicators and return the frame with the provider metadata. Any provider
exception `e` is caught and converted to `"Error: " ++ e`. The result
triple mirrors the Python `(df, info, error)`. -/
def get_stock_data (provider : ℤ → ℤ → Fetched) (now : ℤ) (days : Nat) :
    Option (List AugBar) × Option Info × Option String :=
  let r := fetch_range now days
  match provider r.1 r.2 with
  | .error e => (none, none, some ("Error: " ++ e))
  | .ok (df, info) =>
    if df.isEmpty then (none, none, some "No data found")
    else (some (add_indicators df), some info, none)

/-! ### Presentation layer: `main` (lines 109-168) and `create_chart`
(lines 81-107) -/

/-- Pandas negative positional access `iloc[-k]` (k ≥ 1): the `k`-th
element from the end, or `none` when the frame is shorter than `k`
(Python raises `IndexError` there; the embedding returns no value). -/
def ilocNeg (xs : List α) (k : Nat) : Option α :=
  if k ≤ xs.length then xs.get? (xs.length - k) else none

/-- Maximum of a (column) series, missing when empty (`Series.max`). -/
def colMax (xs : List ℚ) : Option ℚ :=
  match xs with
  | [] => none
  | x :: rest => some (rest.foldl max x)

/-- Minimum of a (column) series, missing when empty (`Series.min`). -/
def colMin (xs : List ℚ) : Option ℚ :=
  match xs with
  | [] => none
  | x :: rest => some (rest.foldl min x)

/-- The summary metrics rendered by `main` (lines 139-153): latest close,
percentage change against the previous close, latest volume, latest RSI
(possibly missing), and the window's high/low. -/
structure Metrics where
  price : ℚ
  change : ℚ
  volume : ℚ
  rsi : Option ℚ
  high : Option ℚ
  low : Option ℚ
deriving DecidableEq, Repr

/-- Metrics derivation of `main` (lines 140-153): reads
`df['Close'].iloc[-1]` and `df['Close'].iloc[-2]` unconditionally, then
`change = (current - prev) / prev * 100`, the latest volume and RSI, and
`High.max` / `Low.min`. The whole derivation yields no value when either
positional access is out of bounds. -/
def deriveMetrics (df : List AugBar) : Option Metrics :=
  match ilocNeg df 1, ilocNeg df 2 with
  | some lastRow, some prevRow =>
    some { price := lastRow.base.Close,
           change := (lastRow.base.Close - prevRow.base.Close) / prevRow.base.Close * 100,
           volume := lastRow.base.Volume,
           rsi := lastRow.RSI,
           high := colMax (df.map fun r => r.base.High),
           low := colMin (df.map fun r => r.base.Low) }
  | _, _ => none

/-- The trace data assembled by `create_chart` (lines 81-107): the
candlestick panel with the two moving averages, the volume panel with its
per-bar colors (`red` when close < open, line 98, here `true`), and the
RSI panel. -/
structure ChartSpec where
  ohlc : List (ℚ × ℚ × ℚ × ℚ)
  sma20 : List (Option ℚ)
  sma50 : List (Option ℚ)
  volumes : List ℚ
  volumeRed : List Bool
  rsiTrace : List (Option ℚ)
deriving DecidableEq, Repr

/-- `create_chart` (lines 81-107), reduced to the data each trace plots. -/
def create_chart (df : List AugBar) : ChartSpec :=
  { ohlc := df.map fun r => (r.base.Open, r.base.High, r.base.Low, r.base.Close),
    sma20 := df.map fun r => r.SMA20,
    sma50 := df.map fun r => r.SMA50,
    volumes := df.map fun r => r.base.Volume,
    volumeRed := df.map fun r => decide (r.base.Close < r.base.Open),
    rsiTrace := df.map fun r => r.RSI }

/-- What the main block renders after `get_stock_data` returns
(lines 135-156): an error box, or the metrics dashboard with the chart;
`indexCrash` marks the uncaught `IndexError` of the metrics derivation,
and `noOutput` the silent fall-through when both `df` and `error` are
`None` (unreachable). -/
inductive RenderResult where
  | errorBox (msg : String)
  | dashboard (m : Metrics) (chart : ChartSpec)
  | indexCrash
  | noOutput
deriving DecidableEq, Repr

/-- The dispatch of `main` on the pipeline result (lines 135-156):
`if error: st.error(error)` then `elif df is not None:` metrics + chart. -/
def render (res : Option (List AugBar) × Option Info × Option String) : RenderResult :=
  match res.2.2 with
  | some err => .errorBox err
  | none =>
    match res.1 with
    | some df =>
      match deriveMetrics df with
      | some m => .dashboard m (create_chart df)
      | none => .indexCrash
    | none => .noOutput

/-- The export filename of line 163: `f"{symbol}_analysis.csv"`. -/
def export_filename (symbol : String) : String :=
  symbol ++ "_analysis.csv"

/-! ### CSV export (lines 159-165)

`df.to_csv()` is pandas serialization, not repository code. Modelled from
the spec (§6 Export file format): comma-delimited text, a header row
naming each column with the timestamp as the leading field, one row per
trading day, numeric values in decimal digits. The text is modelled as a
`List Char`; rational values are written as `numerator/denominator`
(exact — strictly finer than the "within floating-point tolerance"
clause). `from_csv` is the canonical reading of that format. -/

/-- Join cell texts with a separator character. -/
def joinCh (sep : Char) : List (List Char) → List Char
  | [] => []
  | [c] => c
  | c :: cs => c ++ sep :: joinCh sep cs

/-- Split a text at every occurrence of the separator character. -/
def splitCh (sep : Char) : List Char → List (List Char)
  | [] => [[]]
  | c :: rest =>
    if c = sep then [] :: splitCh sep rest
    else
      match splitCh sep rest with
      | [] => [[c]]
      | g :: gs => (c :: g) :: gs

/-- Little-endian base-10 digits of a natural number (empty for 0). -/
def toDigits10 (n : Nat) : List Nat :=
  if h : n = 0 then []
  else (n % 10) :: toDigits10 (n / 10)
termination_by n
decreasing_by exact Nat.div_lt_self (Nat.pos_of_ne_zero h) (by norm_num)

/-- Value of a little-endian digit list. -/
def ofDigits10 (ds : List Nat) : Nat :=
  ds.foldr (fun d acc => d + 10 * acc) 0

/-- The character for one decimal digit. -/
def digitCh (d : Nat) : Char :=
  match d with
  | 0 => '0' | 1 => '1' | 2 => '2' | 3 => '3' | 4 => '4'
  | 5 => '5' | 6 => '6' | 7 => '7' | 8 => '8' | _ => '9'

/-- The decimal digit of a character, when it is one. -/
def chDigit (c : Char) : Option Nat :=
  if 48 ≤ c.toNat ∧ c.toNat ≤ 57 then some (c.toNat - 48) else none

/-- Decimal text of a natural number. -/
def natCh (n : Nat) : List Char :=
  if n = 0 then ['0'] else ((toDigits10 n).reverse).map digitCh

/-- Parse a non-empty run of decimal digits. -/
def parseNatCh (s : List Char) : Option Nat :=
  if s = [] then none
  else do
    let ds ← s.mapM chDigit
    pure (ofDigits10 ds.reverse)

/-- Decimal text of an integer (leading minus sign when negative). -/
def intCh (i : ℤ) : List Char :=
  if i < 0 then '-' :: natCh i.natAbs else natCh i.toNat

/-- Parse an optionally minus-signed run of decimal digits. -/
def parseIntCh (s : List Char) : Option ℤ :=
  match s with
  | [] => none
  | c :: rest =>
    if c = '-' then (parseNatCh rest).map fun n => -(n : ℤ)
    else (parseNatCh (c :: rest)).map fun n => (n : ℤ)

/-- Cell text of a rational value: `numerator/denominator`. -/
def ratCh (q : ℚ) : List Char :=
  intCh q.num ++ '/' :: natCh q.den

/-- Parse a rational cell. -/
def parseRatCh (s : List Char) : Option ℚ :=
  match splitCh '/' s with
  | [ns, ds] => do
    let n ← parseIntCh ns
    let d ← parseNatCh ds
    pure ((n : ℚ) / (d : ℚ))
  | _ => none

/-- Cell text of an indicator value: empty for a missing value (as pandas
writes `NaN` cells). -/
def optRatCh : Option ℚ → List Char
  | none => []
  | some q => ratCh q

/-- Parse a possibly-empty indicator cell. -/
def parseOptRatCh (s : List Char) : Option (Option ℚ) :=
  if s = [] then some none else (parseRatCh s).map some

/-- The header row: the timestamp index column followed by the five bar
columns and the seven indicator columns, in frame order. -/
def csvHeader : List (List Char) :=
  ["Date".toList, "Open".toList, "High".toList, "Low".toList,
   "Close".toList, "Volume".toList, "SMA20".toList, "SMA50".toList,
   "RSI".toList, "MACD".toList, "MACD_Signal".toList,
   "BB_Upper".toList, "BB_Lower".toList]

/-- The thirteen cell texts of one augmented row, timestamp first. -/
def rowCells (r : AugBar) : List (List Char) :=
  [natCh r.base.Date, ratCh r.base.Open, ratCh r.base.High,
   ratCh r.base.Low, ratCh r.base.Close, ratCh r.base.Volume,
   optRatCh r.SMA20, optRatCh r.SMA50, optRatCh r.RSI,
   optRatCh r.MACD, optRatCh r.MACD_Signal,
   optRatCh r.BB_Upper, optRatCh r.BB_Lower]

/-- Parse the thirteen cells of one data row back into an augmented row. -/
def parseRow (cells : List (List Char)) : Option AugBar :=
  match cells with
  | [d, o, h, l, c, v, s20, s50, rs, mc, ms, bu, bl] => do
    let dd ← parseNatCh d
    let oo ← parseRatCh o
    let hh ← parseRatCh h
    let ll ← parseRatCh l
    let cc ← parseRatCh c
    let vv ← parseRatCh v
    let w20 ← parseOptRatCh s20
    let w50 ← parseOptRatCh s50
    let wrs ← parseOptRatCh rs
    let wmc ← parseOptRatCh mc
    let wms ← parseOptRatCh ms
    let wbu ← parseOptRatCh bu
    let wbl ← parseOptRatCh bl
    pure ⟨⟨dd, oo, hh, ll, cc, vv⟩, w20, w50, wrs, wmc, wms, wbu, wbl⟩
  | _ => none

/-- Modelled from the spec: the downloaded file `df.to_csv()`
(line 162) — the header line followed by one line per trading day, cells
comma-separated, lines newline-separated, timestamp leading. -/
def to_csv (df : List AugBar) : List Char :=
  joinCh '\n' (joinCh ',' csvHeader :: df.map fun r => joinCh ',' (rowCells r))

/-- Modelled from the spec: re-parsing the delimited export — split into
lines, check the header, split each data line at commas and parse its
cells. -/
def from_csv (s : List Char) : Option (List AugBar) :=
  match splitCh '\n' s with
  | [] => none
  | h :: rows =>
    if h = joinCh ',' csvHeader then
      rows.mapM fun line => parseRow (splitCh ',' line)
    else none

/-! ### Basic frame lemmas -/

theorem augmentFrom_length (c20 c50 cr cm cs cu cl : List (Option ℚ)) :
    ∀ (i : Nat) (df : List Bar),
      (augmentFrom c20 c50 cr cm cs cu cl i df).length = df.length := by
  intro i df
  induction df generalizing i with
  | nil => rfl
  | cons b rest ih => simp [augmentFrom, ih]

theorem add_indicators_length (df : List Bar) :
    (add_indicators df).length = df.length := by
  simp [add_indicators, augmentFrom_length]

theorem augmentFrom_map_base (c20 c50 cr cm cs cu cl : List (Option ℚ)) :
    ∀ (i : Nat) (df : List Bar),
      (augmentFrom c20 c50 cr cm cs cu cl i df).map AugBar.base = df := by
  intro i df
  induction df generalizing i with
  | nil => rfl
  | cons b rest ih => simp [augmentFrom, ih]

theorem add_indicators_map_base (df : List Bar) :
    (add_indicators df).map AugBar.base = df := by
  simp [add_indicators, augmentFrom_map_base]

/-! ### Claim theorems -/

/-- C1: for every ticker string and every exchange, symbol resolution
returns exactly the uppercased ticker followed by that exchange's fixed
suffix literal, and for NYSE exactly the uppercased ticker with nothing
appended. -/
theorem c1_symbol_resolution (t : String) :
    resolveSymbol t .NSE = t.toUpper ++ ".NS" ∧
    resolveSymbol t .BSE = t.toUpper ++ ".BO" ∧
    resolveSymbol t .NYSE = t.toUpper ∧
    resolveSymbol t .LSE = t.toUpper ++ ".L" ∧
    resolveSymbol t .EUR = t.toUpper ++ ".DE" ∧
    resolveSymbol t .JPX = t.toUpper ++ ".T" ∧
    resolveSymbol t .HKEX = t.toUpper ++ ".HK" :=
  ⟨rfl, rfl, rfl, rfl, rfl, rfl, rfl⟩

/-- C5: each of the four timeframe presets resolves to exactly 30, 90,
180, 365 days, and the fetch requests the range [now − days, now]: it
ends at the current time and spans exactly the resolved day count. -/
theorem c5_timeframe_range (now : ℤ) :
    timeframe_days .M1 = 30 ∧ timeframe_days .M3 = 90 ∧
    timeframe_days .M6 = 180 ∧ timeframe_days .Y1 = 365 ∧
    ∀ tf : Timeframe,
      (fetch_range now (timeframe_days tf)).2 = now ∧
      (fetch_range now (timeframe_days tf)).2
          - (fetch_range now (timeframe_days tf)).1 = timeframe_days tf := by
  refine ⟨rfl, rfl, rfl, rfl, fun tf => ⟨rfl, ?_⟩⟩
  simp [fetch_range]

/-- C2: when the provider fetch raises an exception, the pipeline returns
no series and the message "Error: " followed by the failure description,
and the presentation layer shows an error box rather than receiving an
exception. -/
theorem c2_fetch_exception (provider : ℤ → ℤ → Fetched) (now : ℤ)
    (days : Nat) (e : String)
    (h : provider (now - days) now = .error e) :
    get_stock_data provider now days = (none, none, some ("Error: " ++ e)) ∧
    render (get_stock_data provider now days) = .errorBox ("Error: " ++ e) := by
  have hh : get_stock_data provider now days = (none, none, some ("Error: " ++ e)) := by
    simp only [get_stock_data, fetch_range, h]
  exact ⟨hh, by rw [hh]; rfl⟩

/-- C2 witness: a provider that always fails with "boom". -/
theorem c2_fetch_exception_witness :
    get_stock_data (fun _ _ => .error "boom") 0 30
        = (none, none, some ("Error: " ++ "boom")) :=
  (c2_fetch_exception (fun _ _ => .error "boom") 0 30 "boom" rfl).1

/-- C3: when the fetch succeeds but returns an empty bar series, the
pipeline returns no series with the distinct "No data found" message, and
the presentation layer renders only an error box — no metrics, no chart.
(The indicator step is not reached: the returned series component is
`none`.) -/
theorem c3_no_data (provider : ℤ → ℤ → Fetched) (now : ℤ) (days : Nat)
    (info : Info)
    (h : provider (now - days) now = .ok ([], info)) :
    get_stock_data provider now days = (none, none, some "No data found") ∧
    render (get_stock_data provider now days) = .errorBox "No data found" := by
  have hh : get_stock_data provider now days
      = (none, none, some "No data found") := by
    simp only [get_stock_data, fetch_range, h]
    rfl
  exact ⟨hh, by rw [hh]; rfl⟩

/-- C3 witness: a provider that returns an empty frame. -/
theorem c3_no_data_witness :
    get_stock_data (fun _ _ => .ok ([], [])) 0 30
        = (none, none, some "No data found") :=
  (c3_no_data (fun _ _ => .ok ([], [])) 0 30 [] rfl).1

/-- C8: `get_stock_data` always returns exactly one of two shapes — a
non-empty augmented series with provider metadata and no error, or no
series, no metadata and a non-empty error message. -/
theorem c8_result_shape (provider : ℤ → ℤ → Fetched) (now : ℤ) (days : Nat) :
    (∃ df info, get_stock_data provider now days = (some df, some info, none)
        ∧ df ≠ [])
    ∨ (∃ msg, get_stock_data provider now days = (none, none, some msg)
        ∧ msg ≠ "") := by
  cases hp : provider (now - days) now with
  | error e =>
    right
    refine ⟨"Error: " ++ e, by simp only [get_stock_data, fetch_range, hp], ?_⟩
    intro hcon
    have : ("Error: " ++ e).length = 0 := by rw [hcon]; rfl
    rw [String.length_append] at this
    have h7 : "Error: ".length = 7 := rfl
    omega
  | ok p =>
    obtain ⟨df, info⟩ := p
    cases df with
    | nil =>
      right
      refine ⟨"No data found", ?_, by decide⟩
      simp only [get_stock_data, fetch_range, hp]
      rfl
    | cons b rest =>
      left
      refine ⟨add_indicators (b :: rest), info, ?_, ?_⟩
      · simp only [get_stock_data, fetch_range, hp]
        rfl
      · intro hcon
        have := add_indicators_length (b :: rest)
        rw [hcon] at this
        simp at this

/-- C9: `add_indicators` preserves the row count, the timestamp index and
the original Open/High/Low/Close/Volume columns (the whole original bar
is recoverable row-for-row), its only effect being the seven indicator
columns `AugBar` carries besides `base`. -/
theorem c9_add_indicators_frame (df : List Bar) :
    (add_indicators df).length = df.length ∧
    (add_indicators df).map AugBar.base = df :=
  ⟨add_indicators_length df, add_indicators_map_base df⟩

/-! ### Row-level view of the augmented frame -/

theorem augmentFrom_getD (c20 c50 cr cm cs cu cl : List (Option ℚ)) :
    ∀ (j k : Nat) (df : List Bar), k < df.length →
      (augmentFrom c20 c50 cr cm cs cu cl j df).getD k default =
        { base := df.getD k default,
          SMA20 := optCol c20 (j + k), SMA50 := optCol c50 (j + k),
          RSI := optCol cr (j + k), MACD := optCol cm (j + k),
          MACD_Signal := optCol cs (j + k),
          BB_Upper := optCol cu (j + k), BB_Lower := optCol cl (j + k) } := by
  intro j k df
  induction df generalizing j k with
  | nil => intro h; simp at h
  | cons b rest ih =>
    intro hk
    cases k with
    | zero => simp [augmentFrom]
    | succ k =>
      rw [augmentFrom, List.getD_cons_succ, List.getD_cons_succ,
        ih (j + 1) k (by simpa using hk)]
      have harith : j + 1 + k = j + (k + 1) := by omega
      rw [harith]

theorem optCol_sma (window : Nat) (close : List ℚ) (i : Nat)
    (hi : i < close.length) :
    optCol (sma_indicator window close) i =
      if window ≤ i + 1 then
        some ((((close.take (i + 1)).drop (i + 1 - window)).sum) / window)
      else none := by
  simp [optCol, sma_indicator, List.getD_eq_getElem?_getD, List.getElem?_map,
    List.getElem?_range, hi]

/-- C4: in a series of length at least 50, the 20-period SMA column is
missing exactly before zero-based row 19 and the 50-period SMA column
exactly before row 49, while the original bar at every row is unchanged. -/
theorem c4_sma_window_definedness (df : List Bar) (h50 : 50 ≤ df.length)
    (i : Nat) (hi : i < df.length) :
    (((add_indicators df).getD i default).SMA20 = none ↔ i < 19) ∧
    (((add_indicators df).getD i default).SMA50 = none ↔ i < 49) ∧
    ((add_indicators df).getD i default).base = df.getD i default := by
  have hlen : i < (df.map Bar.Close).length := by simpa using hi
  rw [add_indicators]
  rw [augmentFrom_getD _ _ _ _ _ _ _ 0 i df hi]
  simp only [Nat.zero_add]
  refine ⟨?_, ?_, trivial⟩
  · rw [optCol_sma 20 _ i hlen]
    split_ifs with h20 <;> simp <;> omega
  · rw [optCol_sma 50 _ i hlen]
    split_ifs with h50i <;> simp <;> omega

/-- A 50-row test frame for the C4 witness. -/
def dfC4 : List Bar :=
  (List.range 50).map fun i => ⟨i, 1, 2, 0, (i : ℚ), 10⟩

/-- C4 witness: on a concrete 50-row frame, the 20-period SMA is missing
at row 18 and present at rows 19 and 49, the 50-period SMA missing at
row 48 and present at row 49. -/
theorem c4_sma_window_definedness_witness :
    ((add_indicators dfC4).getD 18 default).SMA20 = none ∧
    ¬ ((add_indicators dfC4).getD 19 default).SMA20 = none ∧
    ((add_indicators dfC4).getD 48 default).SMA50 = none ∧
    ¬ ((add_indicators dfC4).getD 49 default).SMA50 = none := by
  have hlen : 50 ≤ dfC4.length := by simp [dfC4]
  have h18 := c4_sma_window_definedness dfC4 hlen 18 (by simp [dfC4])
  have h19 := c4_sma_window_definedness dfC4 hlen 19 (by simp [dfC4])
  have h48 := c4_sma_window_definedness dfC4 hlen 48 (by simp [dfC4])
  have h49 := c4_sma_window_definedness dfC4 hlen 49 (by simp [dfC4])
  refine ⟨h18.1.mpr (by omega), fun hc => by have := h19.1.mp hc; omega,
    h48.2.1.mpr (by omega), fun hc => by have := h49.2.1.mp hc; omega⟩

/-! ### Metrics derivation lemmas -/

theorem ilocNeg_of_le {α : Type} [Inhabited α] (xs : List α) (k : Nat)
    (h1 : 1 ≤ k) (h : k ≤ xs.length) :
    ilocNeg xs k = some (xs.getD (xs.length - k) default) := by
  have hlt : xs.length - k < xs.length := by omega
  rw [ilocNeg, if_pos h, List.getD_eq_getElem?_getD,
    List.get?_eq_getElem?, List.getElem?_eq_getElem hlt]
  rfl

theorem ilocNeg_of_gt {α : Type} (xs : List α) (k : Nat)
    (h : xs.length < k) : ilocNeg xs k = none := by
  rw [ilocNeg, if_neg (by omega)]

theorem deriveMetrics_isSome (df : List AugBar) :
    (deriveMetrics df).isSome ↔ 2 ≤ df.length := by
  constructor
  · intro h
    by_contra hlen
    have h2 : ilocNeg df 2 = none := ilocNeg_of_gt df 2 (by omega)
    cases hl : ilocNeg df 1 <;> simp [deriveMetrics, hl, h2] at h
  · intro h
    rw [deriveMetrics, ilocNeg_of_le df 1 (by omega) (by omega),
      ilocNeg_of_le df 2 (by omega) h]
    rfl

theorem deriveMetrics_single (b : Bar) :
    deriveMetrics (add_indicators [b]) = none := by
  cases hd : deriveMetrics (add_indicators [b]) with
  | none => rfl
  | some m =>
    have h2 := (deriveMetrics_isSome (add_indicators [b])).mp (by rw [hd]; rfl)
    rw [add_indicators_length] at h2
    simp at h2

/-- C10: the metrics derivation reads the last and second-to-last close
unconditionally, so a successfully fetched single-row series — which
passes the pipeline's non-empty check and reaches the presentation
layer — makes the previous-close access go out of bounds (`indexCrash`);
the derivation yields a value exactly when the series has at least two
rows. -/
theorem c10_prev_close_out_of_bounds (b : Bar) (info : Info)
    (provider : ℤ → ℤ → Fetched) (now : ℤ) (days : Nat)
    (h : provider (now - days) now = .ok ([b], info)) :
    get_stock_data provider now days
        = (some (add_indicators [b]), some info, none) ∧
    deriveMetrics (add_indicators [b]) = none ∧
    render (get_stock_data provider now days) = .indexCrash ∧
    ∀ df : List AugBar, (deriveMetrics df).isSome ↔ 2 ≤ df.length := by
  have hh : get_stock_data provider now days
      = (some (add_indicators [b]), some info, none) := by
    simp only [get_stock_data, fetch_range, h]
    rfl
  refine ⟨hh, deriveMetrics_single b, ?_, deriveMetrics_isSome⟩
  rw [hh, render]
  simp [deriveMetrics_single b]

/-- C10 witness: a provider returning exactly one bar; the metrics step
yields nothing and the render crashes, while a two-row frame succeeds. -/
theorem c10_prev_close_out_of_bounds_witness :
    deriveMetrics (add_indicators [⟨0, 1, 2, 0, 100, 10⟩]) = none ∧
    render (get_stock_data (fun _ _ => .ok ([⟨0, 1, 2, 0, 100, 10⟩], [])) 0 30)
        = .indexCrash ∧
    (deriveMetrics (add_indicators [⟨0, 1, 2, 0, 100, 10⟩, ⟨1, 1, 2, 0, 105, 10⟩])).isSome := by
  have h := c10_prev_close_out_of_bounds ⟨0, 1, 2, 0, 100, 10⟩ []
    (fun _ _ => .ok ([⟨0, 1, 2, 0, 100, 10⟩], [])) 0 30 rfl
  refine ⟨h.2.1, h.2.2.1, (h.2.2.2 _).mpr ?_⟩
  rw [add_indicators_length]
  simp

/-- C6: for every series with at least two bars the displayed percentage
change equals (latest close − previous close) / previous close × 100. -/
theorem c6_percentage_change (df : List AugBar) (h : 2 ≤ df.length) :
    (deriveMetrics df).map Metrics.change
      = some (((df.getD (df.length - 1) default).base.Close
            - (df.getD (df.length - 2) default).base.Close)
          / (df.getD (df.length - 2) default).base.Close * 100) := by
  rw [deriveMetrics, ilocNeg_of_le df 1 (by omega) (by omega),
    ilocNeg_of_le df 2 (by omega) h]
  rfl

/-- A two-row augmented frame with previous close 100.00 and latest
close 105.00, for the C6 witness. -/
def dfC6 : List AugBar :=
  [⟨⟨0, 1, 2, 0, 100, 10⟩, none, none, none, none, none, none, none⟩,
   ⟨⟨1, 1, 2, 0, 105, 10⟩, none, none, none, none, none, none, none⟩]

/-- C6 witness: previous close 100.00 and latest close 105.00 give
exactly +5.00%. -/
theorem c6_percentage_change_witness :
    (deriveMetrics dfC6).map Metrics.change = some 5 := by
  have h := c6_percentage_change dfC6 (by simp [dfC6])
  rw [h]
  norm_num [dfC6]

/-! ### CSV round-trip: digit-level lemmas -/

theorem toDigits10_lt (n : Nat) : ∀ d ∈ toDigits10 n, d < 10 := by
  induction n using Nat.strong_induction_on with
  | _ n ih =>
    by_cases h : n = 0
    · subst h
      rw [toDigits10]
      simp
    · rw [toDigits10]
      simp only [h, dite_false]
      intro d hd
      rcases List.mem_cons.mp hd with h1 | h2
      · omega
      · exact ih (n / 10) (Nat.div_lt_self (Nat.pos_of_ne_zero h) (by norm_num)) d h2

theorem ofDigits10_toDigits10 (n : Nat) : ofDigits10 (toDigits10 n) = n := by
  induction n using Nat.strong_induction_on with
  | _ n ih =>
    by_cases h : n = 0
    · subst h
      rw [toDigits10]
      simp [ofDigits10]
    · rw [toDigits10]
      simp only [h, dite_false, ofDigits10, List.foldr_cons]
      have hrec := ih (n / 10) (Nat.div_lt_self (Nat.pos_of_ne_zero h) (by norm_num))
      rw [ofDigits10] at hrec
      rw [hrec]
      omega

theorem chDigit_digitCh (d : Nat) (h : d < 10) : chDigit (digitCh d) = some d := by
  interval_cases d <;> decide

theorem digitCh_isDigit (d : Nat) (h : d < 10) :
    48 ≤ (digitCh d).toNat ∧ (digitCh d).toNat ≤ 57 := by
  interval_cases d <;> decide

theorem mapM_chDigit (ds : List Nat) (h : ∀ d ∈ ds, d < 10) :
    (ds.map digitCh).mapM chDigit = some ds := by
  induction ds with
  | nil => rfl
  | cons d rest ih =>
    have hd := chDigit_digitCh d (h d (by simp))
    have hrest := ih fun x hx => h x (by simp [hx])
    rw [List.map_cons, List.mapM_cons, hd, hrest]
    rfl

theorem natCh_ne_nil (n : Nat) : natCh n ≠ [] := by
  rw [natCh]
  split_ifs with h
  · simp
  · intro hcon
    have hlen : ((toDigits10 n).reverse.map digitCh).length = 0 := by
      rw [hcon]
      rfl
    simp only [List.length_map, List.length_reverse] at hlen
    rw [toDigits10] at hlen
    simp [h] at hlen

theorem natCh_isDigit (n : Nat) :
    ∀ c ∈ natCh n, 48 ≤ c.toNat ∧ c.toNat ≤ 57 := by
  intro c hc
  rw [natCh] at hc
  split_ifs at hc with h
  · rcases List.mem_singleton.mp hc with rfl
    decide
  · obtain ⟨d, hd, rfl⟩ := List.mem_map.mp hc
    exact digitCh_isDigit d (toDigits10_lt n d (List.mem_reverse.mp hd))

theorem parseNatCh_natCh (n : Nat) : parseNatCh (natCh n) = some n := by
  rw [parseNatCh, if_neg (natCh_ne_nil n), natCh]
  split_ifs with h
  · subst h
    decide
  · have hmap := mapM_chDigit (toDigits10 n).reverse
      (fun d hd => toDigits10_lt n d (List.mem_reverse.mp hd))
    rw [hmap]
    simp [List.reverse_reverse, ofDigits10_toDigits10]

theorem intCh_ne_nil (i : ℤ) : intCh i ≠ [] := by
  rw [intCh]
  split_ifs
  · simp
  · exact natCh_ne_nil _

theorem parseIntCh_intCh (i : ℤ) : parseIntCh (intCh i) = some i := by
  rw [intCh]
  split_ifs with hneg
  · simp [parseIntCh, parseNatCh_natCh]
    rw [abs_of_neg hneg]
    ring
  · cases hnc : natCh i.toNat with
    | nil => exact absurd hnc (natCh_ne_nil _)
    | cons c rest =>
      have hcd : 48 ≤ c.toNat ∧ c.toNat ≤ 57 := natCh_isDigit _ c (by rw [hnc]; simp)
      have hcne : ¬ c = '-' := by
        intro hcon
        subst hcon
        revert hcd
        decide
      have htn : ((i.toNat : ℤ)) = i := by omega
      rw [parseIntCh.eq_def]
      simp only [if_neg hcne]
      rw [← hnc, parseNatCh_natCh]
      simp [htn]

/-- Characters that can appear in a numeric CSV cell: decimal digits, the
minus sign and the fraction slash. -/
abbrev cellChar (c : Char) : Prop :=
  (48 ≤ c.toNat ∧ c.toNat ≤ 57) ∨ c = '-' ∨ c = '/'

theorem natCh_cellChar (n : Nat) : ∀ c ∈ natCh n, cellChar c :=
  fun c hc => Or.inl (natCh_isDigit n c hc)

theorem intCh_cellChar (i : ℤ) : ∀ c ∈ intCh i, cellChar c := by
  intro c hc
  rw [intCh] at hc
  split_ifs at hc
  · rcases List.mem_cons.mp hc with rfl | h2
    · exact Or.inr (Or.inl rfl)
    · exact Or.inl (natCh_isDigit _ c h2)
  · exact Or.inl (natCh_isDigit _ c hc)

theorem ratCh_cellChar (q : ℚ) : ∀ c ∈ ratCh q, cellChar c := by
  intro c hc
  rw [ratCh] at hc
  rcases List.mem_append.mp hc with h1 | h2
  · exact intCh_cellChar q.num c h1
  · rcases List.mem_cons.mp h2 with rfl | h3
    · exact Or.inr (Or.inr rfl)
    · exact Or.inl (natCh_isDigit _ c h3)

theorem optRatCh_cellChar (o : Option ℚ) : ∀ c ∈ optRatCh o, cellChar c := by
  cases o with
  | none => intro c hc; simp [optRatCh] at hc
  | some q => exact ratCh_cellChar q

theorem cellChar_ne_sep (c : Char) (h : cellChar c) : ¬ c = ',' ∧ ¬ c = '\n' := by
  refine ⟨fun hc => ?_, fun hc => ?_⟩ <;> subst hc <;> exact absurd h (by decide)

theorem natCh_no_slash (n : Nat) : '/' ∉ natCh n := by
  intro hc
  have := natCh_isDigit n _ hc
  revert this
  decide

theorem intCh_no_slash (i : ℤ) : '/' ∉ intCh i := by
  intro hc
  rw [intCh] at hc
  split_ifs at hc
  · rcases List.mem_cons.mp hc with h1 | h2
    · exact absurd h1 (by decide)
    · exact natCh_no_slash _ h2
  · exact natCh_no_slash _ hc

/-! ### Separator split/join lemmas -/

theorem splitCh_of_not_mem (sep : Char) (x : List Char) (h : sep ∉ x) :
    splitCh sep x = [x] := by
  induction x with
  | nil => rfl
  | cons c rest ih =>
    have hcs : ¬ c = sep := fun hc => h (by rw [hc]; exact List.mem_cons_self _ _)
    have hrest : sep ∉ rest := fun hr => h (List.mem_cons_of_mem _ hr)
    rw [splitCh, if_neg hcs, ih hrest]

theorem splitCh_append (sep : Char) (x rest : List Char) (h : sep ∉ x) :
    splitCh sep (x ++ sep :: rest) = x :: splitCh sep rest := by
  induction x with
  | nil =>
    rw [List.nil_append, splitCh, if_pos rfl]
  | cons c cs ih =>
    have hcs : ¬ c = sep := fun hc => h (by rw [hc]; exact List.mem_cons_self _ _)
    have hcs2 : sep ∉ cs := fun hr => h (List.mem_cons_of_mem _ hr)
    rw [List.cons_append, splitCh, if_neg hcs, ih hcs2]

theorem splitCh_joinCh (sep : Char) (cells : List (List Char))
    (hne : cells ≠ []) (h : ∀ cell ∈ cells, sep ∉ cell) :
    splitCh sep (joinCh sep cells) = cells := by
  induction cells with
  | nil => exact absurd rfl hne
  | cons c cs ih =>
    cases cs with
    | nil => exact splitCh_of_not_mem sep c (h c (List.mem_cons_self _ _))
    | cons c2 cs2 =>
      have hjoin : joinCh sep (c :: c2 :: cs2) = c ++ sep :: joinCh sep (c2 :: cs2) := rfl
      rw [hjoin, splitCh_append sep c _ (h c (List.mem_cons_self _ _)),
        ih (by simp) fun cell hc => h cell (List.mem_cons_of_mem _ hc)]

theorem joinCh_mem (sep : Char) (cells : List (List Char)) (c : Char)
    (hc : c ∈ joinCh sep cells) : c = sep ∨ ∃ cell ∈ cells, c ∈ cell := by
  induction cells with
  | nil => simp [joinCh] at hc
  | cons x cs ih =>
    cases cs with
    | nil =>
      right
      exact ⟨x, List.mem_cons_self _ _, hc⟩
    | cons x2 cs2 =>
      have hjoin : joinCh sep (x :: x2 :: cs2) = x ++ sep :: joinCh sep (x2 :: cs2) := rfl
      rw [hjoin] at hc
      rcases List.mem_append.mp hc with h1 | h2
      · exact Or.inr ⟨x, List.mem_cons_self _ _, h1⟩
      · rcases List.mem_cons.mp h2 with h3 | h4
        · exact Or.inl h3
        · rcases ih h4 with h5 | ⟨cell, hcell, hmem⟩
          · exact Or.inl h5
          · exact Or.inr ⟨cell, List.mem_cons_of_mem _ hcell, hmem⟩

theorem ratCh_ne_nil (q : ℚ) : ratCh q ≠ [] := by
  rw [ratCh]
  cases hnc : intCh q.num with
  | nil => exact absurd hnc (intCh_ne_nil _)
  | cons c rest => simp

theorem parseRatCh_ratCh (q : ℚ) : parseRatCh (ratCh q) = some q := by
  have hsplit : splitCh '/' (ratCh q) = [intCh q.num, natCh q.den] := by
    rw [ratCh, splitCh_append _ _ _ (intCh_no_slash q.num),
      splitCh_of_not_mem _ _ (natCh_no_slash q.den)]
  rw [parseRatCh.eq_def, hsplit]
  simp [parseIntCh_intCh, parseNatCh_natCh, Rat.num_div_den]

theorem parseOptRatCh_optRatCh (o : Option ℚ) :
    parseOptRatCh (optRatCh o) = some o := by
  cases o with
  | none => rfl
  | some q =>
    rw [optRatCh, parseOptRatCh, if_neg (ratCh_ne_nil q), parseRatCh_ratCh]
    rfl

theorem parseRow_rowCells (r : AugBar) : parseRow (rowCells r) = some r := by
  rw [rowCells, parseRow]
  simp [parseNatCh_natCh, parseRatCh_ratCh, parseOptRatCh_optRatCh]

theorem rowCells_ne_nil (r : AugBar) : rowCells r ≠ [] := by
  rw [rowCells]
  simp

theorem rowCells_cellChar (r : AugBar) :
    ∀ cell ∈ rowCells r, ∀ c ∈ cell, cellChar c := by
  intro cell hcell
  rw [rowCells] at hcell
  simp only [List.mem_cons, List.not_mem_nil, or_false] at hcell
  rcases hcell with rfl | rfl | rfl | rfl | rfl | rfl | rfl | rfl | rfl | rfl | rfl | rfl | rfl
  · exact natCh_cellChar _
  · exact ratCh_cellChar _
  · exact ratCh_cellChar _
  · exact ratCh_cellChar _
  · exact ratCh_cellChar _
  · exact ratCh_cellChar _
  · exact optRatCh_cellChar _
  · exact optRatCh_cellChar _
  · exact optRatCh_cellChar _
  · exact optRatCh_cellChar _
  · exact optRatCh_cellChar _
  · exact optRatCh_cellChar _
  · exact optRatCh_cellChar _

theorem rowCells_no_comma (r : AugBar) : ∀ cell ∈ rowCells r, ',' ∉ cell :=
  fun cell hcell hc => (cellChar_ne_sep _ (rowCells_cellChar r cell hcell _ hc)).1 rfl

theorem rowLine_no_newline (r : AugBar) : '\n' ∉ joinCh ',' (rowCells r) := by
  intro hc
  rcases joinCh_mem ',' (rowCells r) _ hc with h1 | ⟨cell, hcell, hmem⟩
  · exact absurd h1 (by decide)
  · exact (cellChar_ne_sep _ (rowCells_cellChar r cell hcell _ hmem)).2 rfl

theorem parseLine_rowLine (r : AugBar) :
    parseRow (splitCh ',' (joinCh ',' (rowCells r))) = some r := by
  rw [splitCh_joinCh ',' (rowCells r) (rowCells_ne_nil r) (rowCells_no_comma r),
    parseRow_rowCells]

theorem mapM_parseLines (l : List AugBar) :
    (l.map fun r => joinCh ',' (rowCells r)).mapM
      (fun line => parseRow (splitCh ',' line)) = some l := by
  induction l with
  | nil => rfl
  | cons r rest ih =>
    rw [List.map_cons, List.mapM_cons, parseLine_rowLine, ih]
    rfl

/-- C7: serializing an augmented series to the comma-delimited export —
all columns including the indicator columns, timestamp as leading field,
file named `{symbol}_analysis.csv` — and re-parsing the output reproduces
the series exactly: the same row count, the same column set (the header
is fixed) and the same values. -/
theorem c7_export_roundtrip (symbol : String) (df : List AugBar) :
    export_filename symbol = symbol ++ "_analysis.csv" ∧
    from_csv (to_csv df) = some df := by
  refine ⟨rfl, ?_⟩
  have hsplit : splitCh '\n'
      (joinCh '\n' (joinCh ',' csvHeader :: df.map fun r => joinCh ',' (rowCells r)))
      = joinCh ',' csvHeader :: df.map fun r => joinCh ',' (rowCells r) := by
    apply splitCh_joinCh
    · simp
    · intro line hline
      rcases List.mem_cons.mp hline with rfl | h2
      · decide
      · obtain ⟨r, hr, rfl⟩ := List.mem_map.mp h2
        exact rowLine_no_newline r
  rw [to_csv, from_csv.eq_def, hsplit]
  simp only [if_pos rfl]
  exact mapM_parseLines df
